import Mathlib

/-!
Shallow embedding of the `package_manager` subsystem of the repository
(`src-tauri/src/package_manager/{types,chocolatey,winget,mod}.rs`).

The external world is modelled by an `Env`: a deterministic map from a spawn
request (executable path plus argument vector) to its outcome.  A spawn either
fails at the OS level (`SpawnOutcome.failed msg`, mirroring a `std::io::Error`
whose display string is `msg`) or runs to completion
(`SpawnOutcome.ran success stdout stderr`, mirroring `std::process::Output`
after lossy UTF-8 conversion of the captured streams).  Every operation is
embedded as a function from the environment to its Rust return value
(`Result<_, PackageError>` becomes `Except PackageError _`) paired with the
ordered trace of every process spawn it performed, so that claims about which
argument vectors are (not) launched are statable.
-/

/-- `types.rs`: `PackageSource`. -/
inductive PackageSource where
  | Chocolatey
  | Winget
deriving DecidableEq

/-- `types.rs`: `InstallResult`. -/
structure InstallResult where
  success : Bool
  package_id : String
  version : Option String
  output : String
  error : Option String
deriving DecidableEq

/-- `types.rs`: `UninstallResult`. -/
structure UninstallResult where
  success : Bool
  package_id : String
  output : String
  error : Option String
deriving DecidableEq

/-- `types.rs`: `UpgradeResult`. -/
structure UpgradeResult where
  success : Bool
  package_id : String
  old_version : Option String
  new_version : Option String
  output : String
  error : Option String
deriving DecidableEq

/-- `types.rs`: `InstalledPackage`. -/
structure InstalledPackage where
  id : String
  version : String
  source : PackageSource
  name : Option String
deriving DecidableEq

/-- `types.rs`: `PackageError`, the six-variant error union. -/
inductive PackageError where
  | NotFound (msg : String)
  | CommandFailed (msg : String)
  | PermissionDenied (msg : String)
  | AlreadyInstalled (msg : String)
  | NotInstalled (msg : String)
  | Unknown (msg : String)
deriving DecidableEq

/-- Outcome of spawning one external process: either the spawn/wait itself
fails at the OS level (`.output()` returns `Err`, with display string `msg`),
or the process runs to completion with an exit-status success flag and the
captured stdout/stderr (already lossily decoded to `String`, as the Rust code
does with `String::from_utf8_lossy`). -/
inductive SpawnOutcome where
  | failed (msg : String)
  | ran (success : Bool) (stdout : String) (stderr : String)
deriving DecidableEq

/-- One recorded process spawn: executable path and argument vector. -/
structure SpawnCall where
  exe : String
  args : List String
deriving DecidableEq

/-- The deterministic external environment: what happens when a given
executable is spawned with a given argument vector. -/
structure Env where
  run : String → List String → SpawnOutcome

/-- `out.isFailed = true` iff the spawn could not be run to completion. -/
def SpawnOutcome.isFailed : SpawnOutcome → Bool
  | .failed _ => true
  | .ran _ _ _ => false

/-- `out.ranNonZero = true` iff the process ran to completion with an
unsuccessful exit status. -/
def SpawnOutcome.ranNonZero : SpawnOutcome → Bool
  | .failed _ => false
  | .ran b _ _ => !b

/-- Whether an `Except` value is an error-union value. -/
def exceptIsError {ε α : Type} : Except ε α → Bool
  | .error _ => true
  | .ok _ => false

instance {ε α : Type} [DecidableEq ε] [DecidableEq α] : DecidableEq (Except ε α) := fun x y =>
  match x, y with
  | .ok a, .ok b =>
      if h : a = b then .isTrue (by rw [h]) else .isFalse (by simp [h])
  | .error a, .error b =>
      if h : a = b then .isTrue (by rw [h]) else .isFalse (by simp [h])
  | .ok _, .error _ => .isFalse (by simp)
  | .error _, .ok _ => .isFalse (by simp)

/-- `pat` occurs as a contiguous run inside `s` (both as character lists). -/
def charsInfixB (pat : List Char) : List Char → Bool
  | [] => pat.isEmpty
  | c :: cs => pat.isPrefixOf (c :: cs) || charsInfixB pat cs

/-- Rust `str::contains(pat)` for a string pattern: substring containment. -/
def strContainsSub (s pat : String) : Bool :=
  charsInfixB pat.data s.data

/-- Split a character list at every character satisfying `p`, keeping empty
chunks (the splitting characters are dropped). -/
def splitByPred (p : Char → Bool) : List Char → List (List Char)
  | [] => [[]]
  | c :: cs =>
    let rest := splitByPred p cs
    if p c then [] :: rest
    else
      match rest with
      | r :: rs => (c :: r) :: rs
      | [] => [[c]]

/-- Rust `str::split(sep)` for a character separator (keeps empty fields,
as Rust does: `"a|b|".split('|')` is `["a", "b", ""]`). -/
def splitOnChar (sep : Char) (s : String) : List String :=
  (splitByPred (fun c => c = sep) s.data).map String.mk

/-- Rust `str::split_whitespace`: split on whitespace runs, no empty tokens.
(Rust uses Unicode `White_Space`; this model uses ASCII whitespace, which
coincides on all inputs appearing in this development.) -/
def splitWhitespace (s : String) : List String :=
  ((splitByPred Char.isWhitespace s.data).filter (fun t => !t.isEmpty)).map String.mk

/-- Rust `str::lines`: split at `\n`, strip one trailing `\r` per line, and
produce no final empty line for a trailing line terminator. -/
def rustLines (s : String) : List String :=
  let raw := splitOnChar '\n' s
  let raw := if raw.getLast? = some "" then raw.dropLast else raw
  raw.map fun l =>
    match l.data.getLast? with
    | some c => if c = '\r' then String.mk l.data.dropLast else l
    | none => l

/-- Rust `str::trim`: drop leading and trailing whitespace. -/
def trimChars (s : String) : String :=
  String.mk (((s.data.dropWhile Char.isWhitespace).reverse.dropWhile Char.isWhitespace).reverse)

/-- Rust `str::starts_with(c)` for a character. -/
def strStartsWithChar (s : String) (c : Char) : Bool :=
  match s.data with
  | [] => false
  | c0 :: _ => c0 = c

/-- Rust `[&str]::join(" ")`. -/
def joinSpace : List String → String
  | [] => ""
  | [w] => w
  | w :: ws => w ++ " " ++ joinSpace ws

/-- Rust `str::trim_start_matches('v')`: drop every leading `'v'`. -/
def stripLeadingV (w : String) : String :=
  String.mk (w.data.dropWhile (fun c => c = 'v'))

/-- `chocolatey.rs`: `ChocolateyManager { exe_path }`. -/
structure ChocolateyManager where
  exe_path : String
deriving DecidableEq

/-- `ChocolateyManager::new()`. -/
def ChocolateyManager.new : ChocolateyManager := ⟨"choco"⟩

/-- The presence-probe spawn `<exe> --version`. -/
def ChocolateyManager.probeCall (self : ChocolateyManager) : SpawnCall :=
  ⟨self.exe_path, ["--version"]⟩

/-- `ChocolateyManager::is_installed`: true iff `<exe> --version` can be
spawned and waited on at all (`.output().is_ok()`), independent of exit code. -/
def ChocolateyManager.is_installed (self : ChocolateyManager) (env : Env) : Bool :=
  match env.run self.exe_path ["--version"] with
  | .failed _ => false
  | .ran _ _ _ => true

/-- The per-word test of `ChocolateyManager::parse_version_from_output`:
`word.contains("v") || (i > 0 && words[i - 1].contains("version"))`. -/
def chocoWordCond (prev : Option String) (w : String) : Bool :=
  strContainsSub w "v" ||
    (match prev with
     | some p => strContainsSub p "version"
     | none => false)

/-- The inner word loop of `ChocolateyManager::parse_version_from_output`,
threading the previous word; returns the first word passing `chocoWordCond`,
with leading `'v'`s stripped. -/
def chocoScanWords : Option String → List String → Option String
  | _, [] => none
  | prev, w :: ws =>
    if chocoWordCond prev w then some (stripLeadingV w)
    else chocoScanWords (some w) ws

/-- The outer line loop of `ChocolateyManager::parse_version_from_output`. -/
def chocoVersionGo : List String → Option String
  | [] => none
  | line :: rest =>
    if strContainsSub line "successfully installed" || strContainsSub line "upgraded" then
      match chocoScanWords none (splitWhitespace line) with
      | some v => some v
      | none => chocoVersionGo rest
    else chocoVersionGo rest

/-- `ChocolateyManager::parse_version_from_output`. -/
def ChocolateyManager.parse_version_from_output (output : String) : Option String :=
  chocoVersionGo (rustLines output)

/-- The per-line closure inside `ChocolateyManager::list_installed`:
split on `'|'`, require at least two fields, trim the first two. -/
def ChocolateyManager.parseListLine (line : String) : Option InstalledPackage :=
  match splitOnChar '|' line with
  | p0 :: p1 :: _ =>
      some { id := trimChars p0, version := trimChars p1,
             source := .Chocolatey, name := some (trimChars p0) }
  | _ => none

/-- The stdout parse of `ChocolateyManager::list_installed`:
`stdout.lines().filter_map(...)`. -/
def ChocolateyManager.parseListOutput (stdout : String) : List InstalledPackage :=
  (rustLines stdout).filterMap ChocolateyManager.parseListLine

/-- `ChocolateyManager::install`. -/
def ChocolateyManager.install (self : ChocolateyManager) (env : Env)
    (package_id : String) : Except PackageError InstallResult × List SpawnCall :=
  if !(self.is_installed env) then
    (.error (.NotFound "Chocolatey is not installed"), [self.probeCall])
  else
    match env.run self.exe_path ["install", package_id, "-y", "--no-progress"] with
    | .failed e =>
        (.error (.CommandFailed e),
         [self.probeCall, ⟨self.exe_path, ["install", package_id, "-y", "--no-progress"]⟩])
    | .ran succ out err =>
        (.ok { success := succ, package_id := package_id,
               version := ChocolateyManager.parse_version_from_output out,
               output := out,
               error := if succ then none else some err },
         [self.probeCall, ⟨self.exe_path, ["install", package_id, "-y", "--no-progress"]⟩])

/-- `ChocolateyManager::uninstall`. -/
def ChocolateyManager.uninstall (self : ChocolateyManager) (env : Env)
    (package_id : String) : Except PackageError UninstallResult × List SpawnCall :=
  if !(self.is_installed env) then
    (.error (.NotFound "Chocolatey is not installed"), [self.probeCall])
  else
    match env.run self.exe_path ["uninstall", package_id, "-y"] with
    | .failed e =>
        (.error (.CommandFailed e),
         [self.probeCall, ⟨self.exe_path, ["uninstall", package_id, "-y"]⟩])
    | .ran succ out err =>
        (.ok { success := succ, package_id := package_id,
               output := out,
               error := if succ then none else some err },
         [self.probeCall, ⟨self.exe_path, ["uninstall", package_id, "-y"]⟩])

/-- `ChocolateyManager::list_installed`. -/
def ChocolateyManager.list_installed (self : ChocolateyManager) (env : Env) :
    Except PackageError (List InstalledPackage) × List SpawnCall :=
  if !(self.is_installed env) then
    (.error (.NotFound "Chocolatey is not installed"), [self.probeCall])
  else
    match env.run self.exe_path ["list", "--local-only", "--limit-output"] with
    | .failed e =>
        (.error (.CommandFailed e),
         [self.probeCall, ⟨self.exe_path, ["list", "--local-only", "--limit-output"]⟩])
    | .ran succ out err =>
        if !succ then
          (.error (.CommandFailed err),
           [self.probeCall, ⟨self.exe_path, ["list", "--local-only", "--limit-output"]⟩])
        else
          (.ok (ChocolateyManager.parseListOutput out),
           [self.probeCall, ⟨self.exe_path, ["list", "--local-only", "--limit-output"]⟩])

/-- `ChocolateyManager::upgrade`: pre-query the installed list for
`old_version`, propagate its failure with `?`, then run the upgrade
subcommand. -/
def ChocolateyManager.upgrade (self : ChocolateyManager) (env : Env)
    (package_id : String) : Except PackageError UpgradeResult × List SpawnCall :=
  if !(self.is_installed env) then
    (.error (.NotFound "Chocolatey is not installed"), [self.probeCall])
  else
    match self.list_installed env with
    | (.error e, t) => (.error e, self.probeCall :: t)
    | (.ok installed, t) =>
      let old_version := (installed.find? (fun p => p.id = package_id)).map (fun p => p.version)
      match env.run self.exe_path ["upgrade", package_id, "-y", "--no-progress"] with
      | .failed e =>
          (.error (.CommandFailed e),
           self.probeCall :: t ++ [⟨self.exe_path, ["upgrade", package_id, "-y", "--no-progress"]⟩])
      | .ran succ out err =>
          (.ok { success := succ, package_id := package_id,
                 old_version := old_version,
                 new_version := ChocolateyManager.parse_version_from_output out,
                 output := out,
                 error := if succ then none else some err },
           self.probeCall :: t ++ [⟨self.exe_path, ["upgrade", package_id, "-y", "--no-progress"]⟩])

/-- `winget.rs`: `WingetManager { exe_path }`. -/
structure WingetManager where
  exe_path : String
deriving DecidableEq

/-- `WingetManager::new()`. -/
def WingetManager.new : WingetManager := ⟨"winget"⟩

/-- The presence-probe spawn `<exe> --version`. -/
def WingetManager.probeCall (self : WingetManager) : SpawnCall :=
  ⟨self.exe_path, ["--version"]⟩

/-- `WingetManager::is_installed`: true iff `<exe> --version` can be spawned
and waited on at all (`.output().is_ok()`), independent of exit code. -/
def WingetManager.is_installed (self : WingetManager) (env : Env) : Bool :=
  match env.run self.exe_path ["--version"] with
  | .failed _ => false
  | .ran _ _ _ => true

/-- The per-word test of `WingetManager::parse_version_from_output`:
`word.chars().any(|c| c == '.') && word.chars().any(|c| c.is_numeric())`.
(Rust `char::is_numeric` is modelled by `Char.isDigit`; the two coincide on
ASCII, which covers every input in this development.) -/
def wingetWordCond (w : String) : Bool :=
  w.data.any (fun c => c = '.') && w.data.any Char.isDigit

/-- The outer line loop of `WingetManager::parse_version_from_output`; the
inner word loop returns the first word passing `wingetWordCond`, unmodified. -/
def wingetVersionGo : List String → Option String
  | [] => none
  | line :: rest =>
    if strContainsSub line "Successfully installed" || strContainsSub line "upgraded" then
      match (splitWhitespace line).find? wingetWordCond with
      | some w => some w
      | none => wingetVersionGo rest
    else wingetVersionGo rest

/-- `WingetManager::parse_version_from_output`. -/
def WingetManager.parse_version_from_output (output : String) : Option String :=
  wingetVersionGo (rustLines output)

/-- The per-line body of the `for` loop in `WingetManager::list_installed`:
skip lines that trim to empty or start with `'-'`; require at least three
whitespace tokens; locate the first token containing `'.'` as the id; the next
token (or `"unknown"`) is the version; the joined preceding tokens (or the id,
when none precede) form the display name. -/
def WingetManager.parseListLine (line : String) : Option InstalledPackage :=
  if trimChars line = "" || strStartsWithChar line '-' then none
  else
    let parts := splitWhitespace line
    if parts.length ≥ 3 then
      match parts.findIdx? (fun p => strContainsSub p ".") with
      | some idx =>
          let id := parts.getD idx ""
          let version := (parts.get? (idx + 1)).getD "unknown"
          let name := joinSpace (parts.take idx)
          some { id := id, version := version, source := .Winget,
                 name := some (if name = "" then id else name) }
      | none => none
    else none

/-- The stdout parse of `WingetManager::list_installed`: skip the first two
header lines, then run the per-line parse. -/
def WingetManager.parseListOutput (stdout : String) : List InstalledPackage :=
  ((rustLines stdout).drop 2).filterMap WingetManager.parseListLine

/-- `WingetManager::install`. -/
def WingetManager.install (self : WingetManager) (env : Env)
    (package_id : String) : Except PackageError InstallResult × List SpawnCall :=
  if !(self.is_installed env) then
    (.error (.NotFound "Winget is not installed"), [self.probeCall])
  else
    match env.run self.exe_path ["install", "--id", package_id, "--silent",
        "--accept-package-agreements", "--accept-source-agreements"] with
    | .failed e =>
        (.error (.CommandFailed e),
         [self.probeCall, ⟨self.exe_path, ["install", "--id", package_id, "--silent",
            "--accept-package-agreements", "--accept-source-agreements"]⟩])
    | .ran succ out err =>
        (.ok { success := succ, package_id := package_id,
               version := WingetManager.parse_version_from_output out,
               output := out,
               error := if succ then none else some err },
         [self.probeCall, ⟨self.exe_path, ["install", "--id", package_id, "--silent",
            "--accept-package-agreements", "--accept-source-agreements"]⟩])

/-- `WingetManager::uninstall`. -/
def WingetManager.uninstall (self : WingetManager) (env : Env)
    (package_id : String) : Except PackageError UninstallResult × List SpawnCall :=
  if !(self.is_installed env) then
    (.error (.NotFound "Winget is not installed"), [self.probeCall])
  else
    match env.run self.exe_path ["uninstall", "--id", package_id, "--silent"] with
    | .failed e =>
        (.error (.CommandFailed e),
         [self.probeCall, ⟨self.exe_path, ["uninstall", "--id", package_id, "--silent"]⟩])
    | .ran succ out err =>
        (.ok { success := succ, package_id := package_id,
               output := out,
               error := if succ then none else some err },
         [self.probeCall, ⟨self.exe_path, ["uninstall", "--id", package_id, "--silent"]⟩])

/-- `WingetManager::list_installed`. -/
def WingetManager.list_installed (self : WingetManager) (env : Env) :
    Except PackageError (List InstalledPackage) × List SpawnCall :=
  if !(self.is_installed env) then
    (.error (.NotFound "Winget is not installed"), [self.probeCall])
  else
    match env.run self.exe_path ["list"] with
    | .failed e =>
        (.error (.CommandFailed e), [self.probeCall, ⟨self.exe_path, ["list"]⟩])
    | .ran succ out err =>
        if !succ then
          (.error (.CommandFailed err), [self.probeCall, ⟨self.exe_path, ["list"]⟩])
        else
          (.ok (WingetManager.parseListOutput out),
           [self.probeCall, ⟨self.exe_path, ["list"]⟩])

/-- `WingetManager::upgrade`: pre-query the installed list for `old_version`,
propagate its failure with `?`, then run the upgrade subcommand. -/
def WingetManager.upgrade (self : WingetManager) (env : Env)
    (package_id : String) : Except PackageError UpgradeResult × List SpawnCall :=
  if !(self.is_installed env) then
    (.error (.NotFound "Winget is not installed"), [self.probeCall])
  else
    match self.list_installed env with
    | (.error e, t) => (.error e, self.probeCall :: t)
    | (.ok installed, t) =>
      let old_version := (installed.find? (fun p => p.id = package_id)).map (fun p => p.version)
      match env.run self.exe_path ["upgrade", "--id", package_id, "--silent",
          "--accept-package-agreements"] with
      | .failed e =>
          (.error (.CommandFailed e),
           self.probeCall :: t ++ [⟨self.exe_path, ["upgrade", "--id", package_id, "--silent",
              "--accept-package-agreements"]⟩])
      | .ran succ out err =>
          (.ok { success := succ, package_id := package_id,
                 old_version := old_version,
                 new_version := WingetManager.parse_version_from_output out,
                 output := out,
                 error := if succ then none else some err },
           self.probeCall :: t ++ [⟨self.exe_path, ["upgrade", "--id", package_id, "--silent",
              "--accept-package-agreements"]⟩])

/-- The spec's §4.4 version-extraction heuristic, written from its words (for
comparison with the code's parsers): consider only lines containing the
success/upgrade keywords, tokenize on whitespace, return the first token that
contains a digit and either a leading `v` marker or an embedded period, with
any leading `v` stripped. -/
def specVersionHeuristic (output : String) : Option String :=
  (rustLines output).findSome? fun line =>
    if strContainsSub line "successfully installed" || strContainsSub line "upgraded" then
      ((splitWhitespace line).find? fun tok =>
          tok.data.any Char.isDigit &&
            (strStartsWithChar tok 'v' || strContainsSub tok ".")).map stripLeadingV
    else none

/-- Pair every token with its predecessor (`none` for the first token). -/
def withPrev (ws : List String) : List (String × Option String) :=
  ws.zip (none :: ws.map some)

/-- Line-level restatement of the Chocolatey version heuristic: on a keyword
line, the first word that contains a `v` or whose predecessor contains
`version`, with leading `v`s stripped. -/
def chocoLineVersion (line : String) : Option String :=
  if strContainsSub line "successfully installed" || strContainsSub line "upgraded" then
    ((withPrev (splitWhitespace line)).find? (fun x => chocoWordCond x.2 x.1)).map
      (fun x => stripLeadingV x.1)
  else none

/-- Line-level restatement of the Winget version heuristic: on a keyword line,
the first word containing both a period and a digit, unmodified. -/
def wingetLineVersion (line : String) : Option String :=
  if strContainsSub line "Successfully installed" || strContainsSub line "upgraded" then
    (splitWhitespace line).find? wingetWordCond
  else none

/-- Concrete environment: probes succeed, both listing subcommands succeed
with small listings, every other subcommand runs to completion with a failing
exit status, stdout `"no luck"` and stderr `"boom"`. -/
def envMixed : Env :=
  ⟨fun _ args =>
    if args = ["--version"] then .ran true "2.3.0" ""
    else if args = ["list", "--local-only", "--limit-output"] then
      .ran true "7zip|19.0|\nvlc|3.0.20" ""
    else if args = ["list"] then
      .ran true "Name Id Version\n----\nMozilla Firefox  Mozilla.Firefox  118.0  winget" ""
    else .ran false "no luck" "boom"⟩

/-- Concrete environment: every spawn fails at the OS level. -/
def envDown : Env := ⟨fun _ _ => .failed "program not found"⟩

/-- Concrete environment: probes succeed, the listing subcommands run but exit
non-zero with stderr `"list broke"`, every other subcommand succeeds. -/
def envListBroken : Env :=
  ⟨fun _ args =>
    if args = ["--version"] then .ran true "2.3.0" ""
    else if args = ["list", "--local-only", "--limit-output"] then .ran false "" "list broke"
    else if args = ["list"] then .ran false "" "list broke"
    else .ran true "ok" ""⟩

/-- Concrete environment: probes succeed, every real subcommand fails to spawn
at the OS level. -/
def envSpawnFlaky : Env :=
  ⟨fun _ args =>
    if args = ["--version"] then .ran true "2.3.0" ""
    else .failed "exec failed"⟩

/-- **C1.** For every result record constructed by install, uninstall or
upgrade on either backend, the `error` field is set iff the `success` flag is
false; moreover, when the operation's own subcommand process ran, `error` is
exactly the captured stderr when the exit status was unsuccessful and unset
otherwise. -/
theorem result_error_iff_not_success
    (c : ChocolateyManager) (w : WingetManager) (env : Env) (pid : String) :
    (∀ r t, c.install env pid = (.ok r, t) → (r.error.isSome ↔ r.success = false)) ∧
    (∀ r t, c.uninstall env pid = (.ok r, t) → (r.error.isSome ↔ r.success = false)) ∧
    (∀ r t, c.upgrade env pid = (.ok r, t) → (r.error.isSome ↔ r.success = false)) ∧
    (∀ r t, w.install env pid = (.ok r, t) → (r.error.isSome ↔ r.success = false)) ∧
    (∀ r t, w.uninstall env pid = (.ok r, t) → (r.error.isSome ↔ r.success = false)) ∧
    (∀ r t, w.upgrade env pid = (.ok r, t) → (r.error.isSome ↔ r.success = false)) ∧
    (∀ r t b o e, env.run c.exe_path ["install", pid, "-y", "--no-progress"] = .ran b o e →
        c.install env pid = (.ok r, t) → r.error = if b then none else some e) ∧
    (∀ r t b o e, env.run w.exe_path ["install", "--id", pid, "--silent",
        "--accept-package-agreements", "--accept-source-agreements"] = .ran b o e →
        w.install env pid = (.ok r, t) → r.error = if b then none else some e) := by
  refine ⟨?_, ?_, ?_, ?_, ?_, ?_, ?_, ?_⟩
  · intro r t h
    unfold ChocolateyManager.install at h
    split at h
    · simp at h
    · split at h
      · simp at h
      · rename_i b o e _
        obtain ⟨h1, -⟩ := Prod.mk.injEq .. ▸ h
        obtain rfl := (Except.ok.injEq ..).mp h1.symm
        cases b <;> simp
  · intro r t h
    unfold ChocolateyManager.uninstall at h
    split at h
    · simp at h
    · split at h
      · simp at h
      · rename_i b o e _
        obtain ⟨h1, -⟩ := Prod.mk.injEq .. ▸ h
        obtain rfl := (Except.ok.injEq ..).mp h1.symm
        cases b <;> simp
  · intro r t h
    unfold ChocolateyManager.upgrade at h
    split at h
    · simp at h
    · split at h
      · simp at h
      · split at h
        · simp at h
        · rename_i b o e _
          obtain ⟨h1, -⟩ := Prod.mk.injEq .. ▸ h
          obtain rfl := (Except.ok.injEq ..).mp h1.symm
          cases b <;> simp
  · intro r t h
    unfold WingetManager.install at h
    split at h
    · simp at h
    · split at h
      · simp at h
      · rename_i b o e _
        obtain ⟨h1, -⟩ := Prod.mk.injEq .. ▸ h
        obtain rfl := (Except.ok.injEq ..).mp h1.symm
        cases b <;> simp
  · intro r t h
    unfold WingetManager.uninstall at h
    split at h
    · simp at h
    · split at h
      · simp at h
      · rename_i b o e _
        obtain ⟨h1, -⟩ := Prod.mk.injEq .. ▸ h
        obtain rfl := (Except.ok.injEq ..).mp h1.symm
        cases b <;> simp
  · intro r t h
    unfold WingetManager.upgrade at h
    split at h
    · simp at h
    · split at h
      · simp at h
      · split at h
        · simp at h
        · rename_i b o e _
          obtain ⟨h1, -⟩ := Prod.mk.injEq .. ▸ h
          obtain rfl := (Except.ok.injEq ..).mp h1.symm
          cases b <;> simp
  · intro r t b o e hs h
    unfold ChocolateyManager.install at h
    split at h
    · simp at h
    · rw [hs] at h
      obtain ⟨h1, -⟩ := Prod.mk.injEq .. ▸ h
      obtain rfl := (Except.ok.injEq ..).mp h1.symm
      rfl
  · intro r t b o e hs h
    unfold WingetManager.install at h
    split at h
    · simp at h
    · rw [hs] at h
      obtain ⟨h1, -⟩ := Prod.mk.injEq .. ▸ h
      obtain rfl := (Except.ok.injEq ..).mp h1.symm
      rfl

/-- Witness for C1 at a concrete environment: a Chocolatey install whose
subcommand exits non-zero yields a record with `error` set and `success`
false. -/
theorem result_error_iff_not_success_witness :
    (({ success := false, package_id := "7zip", version := none, output := "no luck",
        error := some "boom" } : InstallResult).error.isSome ↔
     ({ success := false, package_id := "7zip", version := none, output := "no luck",
        error := some "boom" } : InstallResult).success = false) :=
  (result_error_iff_not_success ChocolateyManager.new WingetManager.new envMixed "7zip").1
    { success := false, package_id := "7zip", version := none, output := "no luck",
      error := some "boom" }
    [⟨"choco", ["--version"]⟩, ⟨"choco", ["install", "7zip", "-y", "--no-progress"]⟩]
    (by decide)

/-- **C2.** If the presence probe for a backend fails to spawn, every
operation against that backend returns `NotFound` naming the missing backend,
and its spawn trace is exactly the probe call: the real subcommand process is
never launched. -/
theorem probe_failure_gates_operations
    (c : ChocolateyManager) (w : WingetManager) (env : Env) (pid : String) :
    (∀ m, env.run c.exe_path ["--version"] = .failed m →
       c.install env pid = (.error (.NotFound "Chocolatey is not installed"), [c.probeCall]) ∧
       c.uninstall env pid = (.error (.NotFound "Chocolatey is not installed"), [c.probeCall]) ∧
       c.list_installed env = (.error (.NotFound "Chocolatey is not installed"), [c.probeCall]) ∧
       c.upgrade env pid = (.error (.NotFound "Chocolatey is not installed"), [c.probeCall])) ∧
    (∀ m, env.run w.exe_path ["--version"] = .failed m →
       w.install env pid = (.error (.NotFound "Winget is not installed"), [w.probeCall]) ∧
       w.uninstall env pid = (.error (.NotFound "Winget is not installed"), [w.probeCall]) ∧
       w.list_installed env = (.error (.NotFound "Winget is not installed"), [w.probeCall]) ∧
       w.upgrade env pid = (.error (.NotFound "Winget is not installed"), [w.probeCall])) := by
  constructor
  · intro m hp
    refine ⟨?_, ?_, ?_, ?_⟩ <;>
      simp [ChocolateyManager.install, ChocolateyManager.uninstall,
        ChocolateyManager.list_installed, ChocolateyManager.upgrade,
        ChocolateyManager.is_installed, hp]
  · intro m hp
    refine ⟨?_, ?_, ?_, ?_⟩ <;>
      simp [WingetManager.install, WingetManager.uninstall,
        WingetManager.list_installed, WingetManager.upgrade,
        WingetManager.is_installed, hp]

/-- Witness for C2 at a concrete environment where every spawn fails: install
on one backend and upgrade on the other both return `NotFound` with only the
probe in the trace. -/
theorem probe_failure_gates_operations_witness :
    ChocolateyManager.new.install envDown "pkg" =
      (.error (.NotFound "Chocolatey is not installed"), [⟨"choco", ["--version"]⟩]) ∧
    WingetManager.new.upgrade envDown "pkg" =
      (.error (.NotFound "Winget is not installed"), [⟨"winget", ["--version"]⟩]) :=
  ⟨((probe_failure_gates_operations ChocolateyManager.new WingetManager.new envDown
      "pkg").1 "program not found" (by decide)).1,
   ((probe_failure_gates_operations ChocolateyManager.new WingetManager.new envDown
      "pkg").2 "program not found" (by decide)).2.2.2⟩

/-- **C3 (counterexample).** With the backend present and every spawned
process running to completion, Chocolatey's `upgrade` still returns the
error-union value `CommandFailed "list broke"`, because the pre-upgrade list
query exited non-zero — a case the claim reserves to the `list` operation
alone.  The trace shows exactly which processes ran. -/
theorem upgrade_error_union_beyond_claimed_cases :
    (ChocolateyManager.new.upgrade envListBroken "7zip").1 =
      .error (.CommandFailed "list broke") ∧
    envListBroken.run "choco" ["--version"] = .ran true "2.3.0" "" ∧
    envListBroken.run "choco" ["list", "--local-only", "--limit-output"] =
      .ran false "" "list broke" ∧
    (ChocolateyManager.new.upgrade envListBroken "7zip").2 =
      [⟨"choco", ["--version"]⟩, ⟨"choco", ["--version"]⟩,
       ⟨"choco", ["list", "--local-only", "--limit-output"]⟩] := by
  decide

/-- **C3 (amended).** An operation returns an error-union value exactly when
the backend probe fails (NotFound), a spawned process cannot be run to
completion (CommandFailed), or a listing subcommand — invoked by `list` or as
upgrade's pre-query — exits non-zero (CommandFailed carrying its stderr).  A
non-zero exit from an install/uninstall/upgrade subcommand that did run is
never an error-union value: it yields a complete record with `success = false`
and `error` set to the captured stderr. -/
theorem error_union_classification
    (c : ChocolateyManager) (w : WingetManager) (env : Env) (pid : String) :
    (exceptIsError (c.install env pid).1 =
      ((env.run c.exe_path ["--version"]).isFailed ||
       (env.run c.exe_path ["install", pid, "-y", "--no-progress"]).isFailed)) ∧
    (exceptIsError (c.uninstall env pid).1 =
      ((env.run c.exe_path ["--version"]).isFailed ||
       (env.run c.exe_path ["uninstall", pid, "-y"]).isFailed)) ∧
    (exceptIsError (c.list_installed env).1 =
      ((env.run c.exe_path ["--version"]).isFailed ||
       (env.run c.exe_path ["list", "--local-only", "--limit-output"]).isFailed ||
       (env.run c.exe_path ["list", "--local-only", "--limit-output"]).ranNonZero)) ∧
    (exceptIsError (c.upgrade env pid).1 =
      ((env.run c.exe_path ["--version"]).isFailed ||
       (env.run c.exe_path ["list", "--local-only", "--limit-output"]).isFailed ||
       (env.run c.exe_path ["list", "--local-only", "--limit-output"]).ranNonZero ||
       (env.run c.exe_path ["upgrade", pid, "-y", "--no-progress"]).isFailed)) ∧
    (∀ b0 o0 e0 m, env.run c.exe_path ["--version"] = .ran b0 o0 e0 →
       env.run c.exe_path ["install", pid, "-y", "--no-progress"] = .failed m →
       (c.install env pid).1 = .error (.CommandFailed m)) ∧
    (∀ b0 o0 e0 o e, env.run c.exe_path ["--version"] = .ran b0 o0 e0 →
       env.run c.exe_path ["list", "--local-only", "--limit-output"] = .ran false o e →
       (c.list_installed env).1 = .error (.CommandFailed e)) ∧
    (∀ b0 o0 e0 o e, env.run c.exe_path ["--version"] = .ran b0 o0 e0 →
       env.run c.exe_path ["install", pid, "-y", "--no-progress"] = .ran false o e →
       (c.install env pid).1 = .ok
         { success := false, package_id := pid,
           version := ChocolateyManager.parse_version_from_output o,
           output := o, error := some e }) ∧
    (∀ b0 o0 e0 o e, env.run c.exe_path ["--version"] = .ran b0 o0 e0 →
       env.run c.exe_path ["uninstall", pid, "-y"] = .ran false o e →
       (c.uninstall env pid).1 = .ok
         { success := false, package_id := pid, output := o, error := some e }) ∧
    (∀ b0 o0 e0 lo le o e, env.run c.exe_path ["--version"] = .ran b0 o0 e0 →
       env.run c.exe_path ["list", "--local-only", "--limit-output"] = .ran true lo le →
       env.run c.exe_path ["upgrade", pid, "-y", "--no-progress"] = .ran false o e →
       (c.upgrade env pid).1 = .ok
         { success := false, package_id := pid,
           old_version := ((ChocolateyManager.parseListOutput lo).find?
               (fun p => p.id = pid)).map (fun p => p.version),
           new_version := ChocolateyManager.parse_version_from_output o,
           output := o, error := some e }) ∧
    (exceptIsError (w.install env pid).1 =
      ((env.run w.exe_path ["--version"]).isFailed ||
       (env.run w.exe_path ["install", "--id", pid, "--silent",
          "--accept-package-agreements", "--accept-source-agreements"]).isFailed)) ∧
    (exceptIsError (w.uninstall env pid).1 =
      ((env.run w.exe_path ["--version"]).isFailed ||
       (env.run w.exe_path ["uninstall", "--id", pid, "--silent"]).isFailed)) ∧
    (exceptIsError (w.list_installed env).1 =
      ((env.run w.exe_path ["--version"]).isFailed ||
       (env.run w.exe_path ["list"]).isFailed ||
       (env.run w.exe_path ["list"]).ranNonZero)) ∧
    (exceptIsError (w.upgrade env pid).1 =
      ((env.run w.exe_path ["--version"]).isFailed ||
       (env.run w.exe_path ["list"]).isFailed ||
       (env.run w.exe_path ["list"]).ranNonZero ||
       (env.run w.exe_path ["upgrade", "--id", pid, "--silent",
          "--accept-package-agreements"]).isFailed)) ∧
    (∀ b0 o0 e0 m, env.run w.exe_path ["--version"] = .ran b0 o0 e0 →
       env.run w.exe_path ["install", "--id", pid, "--silent",
          "--accept-package-agreements", "--accept-source-agreements"] = .failed m →
       (w.install env pid).1 = .error (.CommandFailed m)) ∧
    (∀ b0 o0 e0 o e, env.run w.exe_path ["--version"] = .ran b0 o0 e0 →
       env.run w.exe_path ["list"] = .ran false o e →
       (w.list_installed env).1 = .error (.CommandFailed e)) ∧
    (∀ b0 o0 e0 o e, env.run w.exe_path ["--version"] = .ran b0 o0 e0 →
       env.run w.exe_path ["install", "--id", pid, "--silent",
          "--accept-package-agreements", "--accept-source-agreements"] = .ran false o e →
       (w.install env pid).1 = .ok
         { success := false, package_id := pid,
           version := WingetManager.parse_version_from_output o,
           output := o, error := some e }) ∧
    (∀ b0 o0 e0 o e, env.run w.exe_path ["--version"] = .ran b0 o0 e0 →
       env.run w.exe_path ["uninstall", "--id", pid, "--silent"] = .ran false o e →
       (w.uninstall env pid).1 = .ok
         { success := false, package_id := pid, output := o, error := some e }) ∧
    (∀ b0 o0 e0 lo le o e, env.run w.exe_path ["--version"] = .ran b0 o0 e0 →
       env.run w.exe_path ["list"] = .ran true lo le →
       env.run w.exe_path ["upgrade", "--id", pid, "--silent",
          "--accept-package-agreements"] = .ran false o e →
       (w.upgrade env pid).1 = .ok
         { success := false, package_id := pid,
           old_version := ((WingetManager.parseListOutput lo).find?
               (fun p => p.id = pid)).map (fun p => p.version),
           new_version := WingetManager.parse_version_from_output o,
           output := o, error := some e }) := by
  refine ⟨?_, ?_, ?_, ?_, ?_, ?_, ?_, ?_, ?_, ?_, ?_, ?_, ?_, ?_, ?_, ?_, ?_, ?_⟩
  · rcases hp : env.run c.exe_path ["--version"] with m | ⟨b0, o0, e0⟩ <;>
      rcases hs : env.run c.exe_path ["install", pid, "-y", "--no-progress"] with
        m2 | ⟨b, o, e⟩ <;>
      simp [ChocolateyManager.install, ChocolateyManager.is_installed, exceptIsError,
        SpawnOutcome.isFailed, hp, hs]
  · rcases hp : env.run c.exe_path ["--version"] with m | ⟨b0, o0, e0⟩ <;>
      rcases hs : env.run c.exe_path ["uninstall", pid, "-y"] with m2 | ⟨b, o, e⟩ <;>
      simp [ChocolateyManager.uninstall, ChocolateyManager.is_installed, exceptIsError,
        SpawnOutcome.isFailed, hp, hs]
  · rcases hp : env.run c.exe_path ["--version"] with m | ⟨b0, o0, e0⟩ <;>
      rcases hl : env.run c.exe_path ["list", "--local-only", "--limit-output"] with
        m2 | ⟨b, o, e⟩ <;>
      [skip; skip; skip; cases b] <;>
      simp [ChocolateyManager.list_installed, ChocolateyManager.is_installed, exceptIsError,
        SpawnOutcome.isFailed, SpawnOutcome.ranNonZero, hp, hl]
  · rcases hp : env.run c.exe_path ["--version"] with m | ⟨b0, o0, e0⟩ <;>
      rcases hl : env.run c.exe_path ["list", "--local-only", "--limit-output"] with
        m2 | ⟨bl, lo, le⟩ <;>
      rcases hu : env.run c.exe_path ["upgrade", pid, "-y", "--no-progress"] with
        m3 | ⟨bu, uo, ue⟩ <;>
      [skip; skip; skip; skip; skip; skip; cases bl; cases bl] <;>
      simp [ChocolateyManager.upgrade, ChocolateyManager.list_installed,
        ChocolateyManager.is_installed, exceptIsError,
        SpawnOutcome.isFailed, SpawnOutcome.ranNonZero, hp, hl, hu]
  · intro b0 o0 e0 m hp hs
    simp [ChocolateyManager.install, ChocolateyManager.is_installed, hp, hs]
  · intro b0 o0 e0 o e hp hl
    simp [ChocolateyManager.list_installed, ChocolateyManager.is_installed, hp, hl]
  · intro b0 o0 e0 o e hp hs
    simp [ChocolateyManager.install, ChocolateyManager.is_installed, hp, hs]
  · intro b0 o0 e0 o e hp hs
    simp [ChocolateyManager.uninstall, ChocolateyManager.is_installed, hp, hs]
  · intro b0 o0 e0 lo le o e hp hl hu
    simp [ChocolateyManager.upgrade, ChocolateyManager.list_installed,
      ChocolateyManager.is_installed, hp, hl, hu]
  · rcases hp : env.run w.exe_path ["--version"] with m | ⟨b0, o0, e0⟩ <;>
      rcases hs : env.run w.exe_path ["install", "--id", pid, "--silent",
          "--accept-package-agreements", "--accept-source-agreements"] with m2 | ⟨b, o, e⟩ <;>
      simp [WingetManager.install, WingetManager.is_installed, exceptIsError,
        SpawnOutcome.isFailed, hp, hs]
  · rcases hp : env.run w.exe_path ["--version"] with m | ⟨b0, o0, e0⟩ <;>
      rcases hs : env.run w.exe_path ["uninstall", "--id", pid, "--silent"] with
        m2 | ⟨b, o, e⟩ <;>
      simp [WingetManager.uninstall, WingetManager.is_installed, exceptIsError,
        SpawnOutcome.isFailed, hp, hs]
  · rcases hp : env.run w.exe_path ["--version"] with m | ⟨b0, o0, e0⟩ <;>
      rcases hl : env.run w.exe_path ["list"] with m2 | ⟨b, o, e⟩ <;>
      [skip; skip; skip; cases b] <;>
      simp [WingetManager.list_installed, WingetManager.is_installed, exceptIsError,
        SpawnOutcome.isFailed, SpawnOutcome.ranNonZero, hp, hl]
  · rcases hp : env.run w.exe_path ["--version"] with m | ⟨b0, o0, e0⟩ <;>
      rcases hl : env.run w.exe_path ["list"] with m2 | ⟨bl, lo, le⟩ <;>
      rcases hu : env.run w.exe_path ["upgrade", "--id", pid, "--silent",
          "--accept-package-agreements"] with m3 | ⟨bu, uo, ue⟩ <;>
      [skip; skip; skip; skip; skip; skip; cases bl; cases bl] <;>
      simp [WingetManager.upgrade, WingetManager.list_installed,
        WingetManager.is_installed, exceptIsError,
        SpawnOutcome.isFailed, SpawnOutcome.ranNonZero, hp, hl, hu]
  · intro b0 o0 e0 m hp hs
    simp [WingetManager.install, WingetManager.is_installed, hp, hs]
  · intro b0 o0 e0 o e hp hl
    simp [WingetManager.list_installed, WingetManager.is_installed, hp, hl]
  · intro b0 o0 e0 o e hp hs
    simp [WingetManager.install, WingetManager.is_installed, hp, hs]
  · intro b0 o0 e0 o e hp hs
    simp [WingetManager.uninstall, WingetManager.is_installed, hp, hs]
  · intro b0 o0 e0 lo le o e hp hl hu
    simp [WingetManager.upgrade, WingetManager.list_installed,
      WingetManager.is_installed, hp, hl, hu]

/-- Witness for the amended C3 at concrete environments: spawn failure gives
`CommandFailed`, a non-zero listing exit gives `CommandFailed` with its
stderr, and non-zero exits of install/uninstall/upgrade subcommands give
complete records, never error-union values. -/
theorem error_union_classification_witness :
    (ChocolateyManager.new.install envSpawnFlaky "pkg").1 =
      .error (.CommandFailed "exec failed") ∧
    (ChocolateyManager.new.list_installed envListBroken).1 =
      .error (.CommandFailed "list broke") ∧
    (ChocolateyManager.new.install envMixed "pkg").1 = .ok
      { success := false, package_id := "pkg",
        version := ChocolateyManager.parse_version_from_output "no luck",
        output := "no luck", error := some "boom" } ∧
    (ChocolateyManager.new.uninstall envMixed "pkg").1 = .ok
      { success := false, package_id := "pkg", output := "no luck", error := some "boom" } ∧
    (ChocolateyManager.new.upgrade envMixed "pkg").1 = .ok
      { success := false, package_id := "pkg",
        old_version := ((ChocolateyManager.parseListOutput "7zip|19.0|\nvlc|3.0.20").find?
            (fun p => p.id = "pkg")).map (fun p => p.version),
        new_version := ChocolateyManager.parse_version_from_output "no luck",
        output := "no luck", error := some "boom" } ∧
    (WingetManager.new.install envSpawnFlaky "pkg").1 =
      .error (.CommandFailed "exec failed") ∧
    (WingetManager.new.list_installed envListBroken).1 =
      .error (.CommandFailed "list broke") ∧
    (WingetManager.new.install envMixed "pkg").1 = .ok
      { success := false, package_id := "pkg",
        version := WingetManager.parse_version_from_output "no luck",
        output := "no luck", error := some "boom" } ∧
    (WingetManager.new.uninstall envMixed "pkg").1 = .ok
      { success := false, package_id := "pkg", output := "no luck", error := some "boom" } ∧
    (WingetManager.new.upgrade envMixed "pkg").1 = .ok
      { success := false, package_id := "pkg",
        old_version := ((WingetManager.parseListOutput
            "Name Id Version\n----\nMozilla Firefox  Mozilla.Firefox  118.0  winget").find?
            (fun p => p.id = "pkg")).map (fun p => p.version),
        new_version := WingetManager.parse_version_from_output "no luck",
        output := "no luck", error := some "boom" } := by
  obtain ⟨-, -, -, -, f5, -, -, -, -, -, -, -, -, f14, -, -, -, -⟩ :=
    error_union_classification ChocolateyManager.new WingetManager.new envSpawnFlaky "pkg"
  obtain ⟨-, -, -, -, -, l6, -, -, -, -, -, -, -, -, l15, -, -, -⟩ :=
    error_union_classification ChocolateyManager.new WingetManager.new envListBroken "pkg"
  obtain ⟨-, -, -, -, -, -, m7, m8, m9, -, -, -, -, -, -, m16, m17, m18⟩ :=
    error_union_classification ChocolateyManager.new WingetManager.new envMixed "pkg"
  exact ⟨f5 true "2.3.0" "" "exec failed" (by decide) (by decide),
         l6 true "2.3.0" "" "" "list broke" (by decide) (by decide),
         m7 true "2.3.0" "" "no luck" "boom" (by decide) (by decide),
         m8 true "2.3.0" "" "no luck" "boom" (by decide) (by decide),
         m9 true "2.3.0" "" "7zip|19.0|\nvlc|3.0.20" "" "no luck" "boom"
           (by decide) (by decide) (by decide),
         f14 true "2.3.0" "" "exec failed" (by decide) (by decide),
         l15 true "2.3.0" "" "" "list broke" (by decide) (by decide),
         m16 true "2.3.0" "" "no luck" "boom" (by decide) (by decide),
         m17 true "2.3.0" "" "no luck" "boom" (by decide) (by decide),
         m18 true "2.3.0" ""
           "Name Id Version\n----\nMozilla Firefox  Mozilla.Firefox  118.0  winget"
           "" "no luck" "boom" (by decide) (by decide) (by decide)⟩

/-- **C4 (counterexample).** On the line `" 7zip|19.0"` the first `'|'`-field
is `" 7zip"` (with a leading space), yet the parser produces the record with
id `"7zip"`: the id is not the first field as the claim states, but its
trimmed form. -/
theorem choco_list_parser_field_not_taken_verbatim :
    splitOnChar '|' " 7zip|19.0" = [" 7zip", "19.0"] ∧
    ChocolateyManager.parseListLine " 7zip|19.0" =
      some { id := "7zip", version := "19.0", source := .Chocolatey, name := some "7zip" } ∧
    " 7zip" ≠ "7zip" := by
  decide

/-- **C4 (amended).** For every line of listing output, the parser splits on
`'|'`; with at least two fields it produces exactly one record whose id and
version are the first and second fields trimmed of surrounding whitespace
(name mirroring the trimmed first field) and ignores the rest; a line with
fewer than two fields produces no record; in particular `"7zip|19.0|"` yields
`{id := "7zip", version := "19.0", name := "7zip"}`. -/
theorem choco_list_parser_spec (line stdout : String) :
    (∀ p0 p1 rest, splitOnChar '|' line = p0 :: p1 :: rest →
        ChocolateyManager.parseListLine line =
          some { id := trimChars p0, version := trimChars p1,
                 source := .Chocolatey, name := some (trimChars p0) }) ∧
    (∀ p, splitOnChar '|' line = [p] → ChocolateyManager.parseListLine line = none) ∧
    (ChocolateyManager.parseListOutput stdout =
        (rustLines stdout).filterMap ChocolateyManager.parseListLine) ∧
    ChocolateyManager.parseListOutput "7zip|19.0|" =
      [{ id := "7zip", version := "19.0", source := .Chocolatey, name := some "7zip" }] := by
  refine ⟨?_, ?_, rfl, by decide⟩
  · intro p0 p1 rest h
    unfold ChocolateyManager.parseListLine
    rw [h]
  · intro p h
    unfold ChocolateyManager.parseListLine
    rw [h]

/-- Witness for the amended C4 on a concrete line with padded fields and a
concrete single-field line. -/
theorem choco_list_parser_spec_witness :
    ChocolateyManager.parseListLine " 7zip | 19.0 |x" =
      some { id := trimChars " 7zip ", version := trimChars " 19.0 ",
             source := .Chocolatey, name := some (trimChars " 7zip ") } ∧
    ChocolateyManager.parseListLine "no fields here" = none :=
  ⟨(choco_list_parser_spec " 7zip | 19.0 |x" "").1 " 7zip " " 19.0 " ["x"] (by decide),
   (choco_list_parser_spec "no fields here" "").2.1 "no fields here" (by decide)⟩

/-- **C5 (counterexample).** After the two skipped header lines, the line
`"Foo A.B"` contains exactly one whitespace token with an embedded period,
yet the parser produces no record, because the code additionally requires at
least three whitespace tokens per line. -/
theorem winget_list_parser_drops_short_lines :
    ((splitWhitespace "Foo A.B").countP (fun w => strContainsSub w ".")) = 1 ∧
    WingetManager.parseListOutput "Name Id Version\n----\nFoo A.B" = [] := by
  decide

/-- **C5 (amended).** The parser skips the first two lines unconditionally and
also drops lines that trim to empty, start with `'-'`, have fewer than three
whitespace tokens, or have no token containing a period; on every other line
it takes the first period-containing token as id, the following token (or
`"unknown"` when there is none) as version, and the join of the preceding
tokens (or the id, when none precede) as name; in particular
`"Mozilla Firefox   Mozilla.Firefox   118.0   winget"` yields
`{id := "Mozilla.Firefox", version := "118.0", name := "Mozilla Firefox"}`. -/
theorem winget_list_parser_spec (line stdout : String) :
    ((trimChars line = "" ∨ strStartsWithChar line '-' = true ∨
        (splitWhitespace line).length < 3 ∨
        (splitWhitespace line).findIdx? (fun p => strContainsSub p ".") = none) →
      WingetManager.parseListLine line = none) ∧
    (∀ idx, ¬ trimChars line = "" → strStartsWithChar line '-' = false →
        3 ≤ (splitWhitespace line).length →
        (splitWhitespace line).findIdx? (fun p => strContainsSub p ".") = some idx →
        WingetManager.parseListLine line =
          some { id := (splitWhitespace line).getD idx "",
                 version := ((splitWhitespace line).get? (idx + 1)).getD "unknown",
                 source := .Winget,
                 name := some (if joinSpace ((splitWhitespace line).take idx) = ""
                               then (splitWhitespace line).getD idx ""
                               else joinSpace ((splitWhitespace line).take idx)) }) ∧
    (WingetManager.parseListOutput stdout =
        ((rustLines stdout).drop 2).filterMap WingetManager.parseListLine) ∧
    WingetManager.parseListOutput
        "Name                Id                Version  Source\n----\nMozilla Firefox   Mozilla.Firefox   118.0   winget" =
      [{ id := "Mozilla.Firefox", version := "118.0", source := .Winget,
         name := some "Mozilla Firefox" }] := by
  refine ⟨?_, ?_, rfl, by decide⟩
  · intro h
    unfold WingetManager.parseListLine
    rcases h with h | h | h | h
    · simp [h]
    · simp [h]
    · split
      · rfl
      · have hlen : ¬ (3 ≤ (splitWhitespace line).length) := by omega
        simp [hlen]
    · split
      · rfl
      · simp [h]
  · intro idx h1 h2 h3 h4
    unfold WingetManager.parseListLine
    simp [h1, h2, h3, h4]

/-- Witness for the amended C5 on concrete lines: the claim's own example line
and a line whose period token is last (version falls back to `"unknown"`). -/
theorem winget_list_parser_spec_witness :
    WingetManager.parseListLine "Mozilla Firefox   Mozilla.Firefox   118.0   winget" =
      some { id := (splitWhitespace "Mozilla Firefox   Mozilla.Firefox   118.0   winget").getD 2 "",
             version := ((splitWhitespace "Mozilla Firefox   Mozilla.Firefox   118.0   winget").get? 3).getD "unknown",
             source := .Winget,
             name := some (if joinSpace ((splitWhitespace "Mozilla Firefox   Mozilla.Firefox   118.0   winget").take 2) = ""
                           then (splitWhitespace "Mozilla Firefox   Mozilla.Firefox   118.0   winget").getD 2 ""
                           else joinSpace ((splitWhitespace "Mozilla Firefox   Mozilla.Firefox   118.0   winget").take 2)) } ∧
    WingetManager.parseListLine "dashes in line" = none :=
  ⟨(winget_list_parser_spec "Mozilla Firefox   Mozilla.Firefox   118.0   winget" "").2.1 2
      (by decide) (by decide) (by decide) (by decide),
   (winget_list_parser_spec "dashes in line" "").1 (Or.inr (Or.inr (Or.inr (by decide))))⟩

/-- The Chocolatey word scan equals "find the first word whose test passes,
pairing each word with its predecessor", mapped through leading-`v`
stripping. -/
theorem chocoScanWords_eq_find :
    ∀ (ws : List String) (prev : Option String),
      chocoScanWords prev ws =
        ((ws.zip (prev :: ws.map some)).find? (fun x => chocoWordCond x.2 x.1)).map
          (fun x => stripLeadingV x.1)
  | [], _ => rfl
  | w :: ws, prev => by
    by_cases hc : chocoWordCond prev w = true <;>
      simp [chocoScanWords, List.find?, List.zip, hc, chocoScanWords_eq_find ws (some w)]

/-- The Chocolatey line loop equals a first-hit search with the line-level
restatement. -/
theorem chocoVersionGo_eq_findSome (ls : List String) :
    chocoVersionGo ls = ls.findSome? chocoLineVersion := by
  induction ls with
  | nil => rfl
  | cons l rest ih =>
    have hline : chocoLineVersion l =
        if strContainsSub l "successfully installed" || strContainsSub l "upgraded" then
          chocoScanWords none (splitWhitespace l)
        else none := by
      unfold chocoLineVersion withPrev
      rw [chocoScanWords_eq_find]
    by_cases hk :
        (strContainsSub l "successfully installed" || strContainsSub l "upgraded") = true <;>
      cases hscan : chocoScanWords none (splitWhitespace l) <;>
        simp [chocoVersionGo, List.findSome?, hline, hk, hscan, ih]

/-- The Winget line loop equals a first-hit search with the line-level
restatement. -/
theorem wingetVersionGo_eq_findSome (ls : List String) :
    wingetVersionGo ls = ls.findSome? wingetLineVersion := by
  induction ls with
  | nil => rfl
  | cons l rest ih =>
    by_cases hk :
        (strContainsSub l "Successfully installed" || strContainsSub l "upgraded") = true <;>
      cases hscan : (splitWhitespace l).find? wingetWordCond <;>
        simp [wingetVersionGo, wingetLineVersion, List.findSome?, hk, hscan, ih]

/-- **C6 (counterexample).** On the keyword line `"upgraded via 1.2.3"` the
spec's heuristic returns `"1.2.3"`, but Chocolatey's parser returns `"ia"`
(the first word containing the letter `v`, with its leading `v` stripped); on
the keyword line `"upgraded to v2"` the spec's heuristic returns `"2"`, but
Winget's parser returns nothing (it requires a period and a digit and never
strips `v`). -/
theorem version_heuristic_differs_from_spec :
    ChocolateyManager.parse_version_from_output "upgraded via 1.2.3" = some "ia" ∧
    specVersionHeuristic "upgraded via 1.2.3" = some "1.2.3" ∧
    WingetManager.parse_version_from_output "upgraded to v2" = none ∧
    specVersionHeuristic "upgraded to v2" = some "2" := by
  decide

/-- **C6 (amended).** Each backend's version heuristic considers only lines
containing its success/upgrade keywords and returns the first hit of a
per-line scan: Chocolatey returns the first whitespace token that contains the
letter `v` anywhere or whose preceding token contains `"version"`, with
leading `v`s stripped (keywords `"successfully installed"`/`"upgraded"`);
Winget returns the first token containing both a period and a digit,
unmodified (keywords `"Successfully installed"`/`"upgraded"`); when no line or
token matches, no version is produced, and this absence is never an error. -/
theorem version_heuristic_characterization (output : String) :
    ChocolateyManager.parse_version_from_output output =
      (rustLines output).findSome? chocoLineVersion ∧
    WingetManager.parse_version_from_output output =
      (rustLines output).findSome? wingetLineVersion :=
  ⟨chocoVersionGo_eq_findSome (rustLines output),
   wingetVersionGo_eq_findSome (rustLines output)⟩

/-- **C7.** For every backend, upgrade pre-queries the installed list: any
returned record's `old_version` is the version of the matching identifier in
the parsed pre-query listing (hence unset when the identifier is absent), and
whenever the pre-query listing succeeded, the upgrade subcommand is still
invoked (it appears in the spawn trace). -/
theorem upgrade_prequery_old_version
    (c : ChocolateyManager) (w : WingetManager) (env : Env) (pid : String) :
    (∀ b0 o0 e0 lo le, env.run c.exe_path ["--version"] = .ran b0 o0 e0 →
       env.run c.exe_path ["list", "--local-only", "--limit-output"] = .ran true lo le →
       (∀ r t, c.upgrade env pid = (.ok r, t) →
          r.old_version = ((ChocolateyManager.parseListOutput lo).find?
              (fun p => p.id = pid)).map (fun p => p.version)) ∧
       (⟨c.exe_path, ["upgrade", pid, "-y", "--no-progress"]⟩ : SpawnCall) ∈
         (c.upgrade env pid).2) ∧
    (∀ b0 o0 e0 lo le, env.run w.exe_path ["--version"] = .ran b0 o0 e0 →
       env.run w.exe_path ["list"] = .ran true lo le →
       (∀ r t, w.upgrade env pid = (.ok r, t) →
          r.old_version = ((WingetManager.parseListOutput lo).find?
              (fun p => p.id = pid)).map (fun p => p.version)) ∧
       (⟨w.exe_path, ["upgrade", "--id", pid, "--silent",
          "--accept-package-agreements"]⟩ : SpawnCall) ∈ (w.upgrade env pid).2) := by
  constructor
  · intro b0 o0 e0 lo le hp hl
    constructor
    · intro r t h
      rcases hu : env.run c.exe_path ["upgrade", pid, "-y", "--no-progress"] with
        m | ⟨bu, uo, ue⟩
      · simp [ChocolateyManager.upgrade, ChocolateyManager.list_installed,
          ChocolateyManager.is_installed, hp, hl, hu] at h
      · simp [ChocolateyManager.upgrade, ChocolateyManager.list_installed,
          ChocolateyManager.is_installed, hp, hl, hu, Prod.mk.injEq] at h
        obtain ⟨hr, -⟩ := h
        subst hr
        rfl
    · rcases hu : env.run c.exe_path ["upgrade", pid, "-y", "--no-progress"] with
        m | ⟨bu, uo, ue⟩ <;>
        simp [ChocolateyManager.upgrade, ChocolateyManager.list_installed,
          ChocolateyManager.is_installed, ChocolateyManager.probeCall, hp, hl, hu]
  · intro b0 o0 e0 lo le hp hl
    constructor
    · intro r t h
      rcases hu : env.run w.exe_path ["upgrade", "--id", pid, "--silent",
          "--accept-package-agreements"] with m | ⟨bu, uo, ue⟩
      · simp [WingetManager.upgrade, WingetManager.list_installed,
          WingetManager.is_installed, hp, hl, hu] at h
      · simp [WingetManager.upgrade, WingetManager.list_installed,
          WingetManager.is_installed, hp, hl, hu, Prod.mk.injEq] at h
        obtain ⟨hr, -⟩ := h
        subst hr
        rfl
    · rcases hu : env.run w.exe_path ["upgrade", "--id", pid, "--silent",
          "--accept-package-agreements"] with m | ⟨bu, uo, ue⟩ <;>
        simp [WingetManager.upgrade, WingetManager.list_installed,
          WingetManager.is_installed, WingetManager.probeCall, hp, hl, hu]

/-- Witness for C7 at a concrete environment: a present identifier gets its
pre-query version as `old_version`; an absent identifier gets `old_version`
unset while the upgrade subcommand still appears in the trace. -/
theorem upgrade_prequery_old_version_witness :
    ({ success := false, package_id := "7zip", old_version := some "19.0",
       new_version := none, output := "no luck",
       error := some "boom" } : UpgradeResult).old_version =
      ((ChocolateyManager.parseListOutput "7zip|19.0|\nvlc|3.0.20").find?
          (fun p => p.id = "7zip")).map (fun p => p.version) ∧
    ({ success := false, package_id := "pkg", old_version := none,
       new_version := none, output := "no luck",
       error := some "boom" } : UpgradeResult).old_version =
      ((WingetManager.parseListOutput
          "Name Id Version\n----\nMozilla Firefox  Mozilla.Firefox  118.0  winget").find?
          (fun p => p.id = "pkg")).map (fun p => p.version) ∧
    (⟨"winget", ["upgrade", "--id", "pkg", "--silent",
        "--accept-package-agreements"]⟩ : SpawnCall) ∈
      (WingetManager.new.upgrade envMixed "pkg").2 := by
  obtain ⟨hc, -⟩ :=
    upgrade_prequery_old_version ChocolateyManager.new WingetManager.new envMixed "7zip"
  obtain ⟨-, hw⟩ :=
    upgrade_prequery_old_version ChocolateyManager.new WingetManager.new envMixed "pkg"
  obtain ⟨h1, -⟩ := hc true "2.3.0" "" "7zip|19.0|\nvlc|3.0.20" "" (by decide) (by decide)
  obtain ⟨h2, h3⟩ := hw true "2.3.0" ""
    "Name Id Version\n----\nMozilla Firefox  Mozilla.Firefox  118.0  winget" ""
    (by decide) (by decide)
  refine ⟨h1 _ [⟨"choco", ["--version"]⟩, ⟨"choco", ["--version"]⟩,
      ⟨"choco", ["list", "--local-only", "--limit-output"]⟩,
      ⟨"choco", ["upgrade", "7zip", "-y", "--no-progress"]⟩] (by decide),
    h2 _ [⟨"winget", ["--version"]⟩, ⟨"winget", ["--version"]⟩,
      ⟨"winget", ["list"]⟩,
      ⟨"winget", ["upgrade", "--id", "pkg", "--silent",
        "--accept-package-agreements"]⟩] (by decide), h3⟩

/-- **C8.** For every operation and package identifier, the spawn trace
consists exactly of the fixed non-interactive argument templates of the §6
table: the probe `--version`, and the backend's install / uninstall / list /
upgrade vectors, in the documented order (upgrade nests a full list
pre-query, so its trace repeats the probe before the listing vector). -/
theorem spawned_argument_vectors_match_templates
    (c : ChocolateyManager) (w : WingetManager) (env : Env) (pid : String) :
    ((c.install env pid).2 = [⟨c.exe_path, ["--version"]⟩] ∨
     (c.install env pid).2 = [⟨c.exe_path, ["--version"]⟩,
        ⟨c.exe_path, ["install", pid, "-y", "--no-progress"]⟩]) ∧
    ((c.uninstall env pid).2 = [⟨c.exe_path, ["--version"]⟩] ∨
     (c.uninstall env pid).2 = [⟨c.exe_path, ["--version"]⟩,
        ⟨c.exe_path, ["uninstall", pid, "-y"]⟩]) ∧
    ((c.list_installed env).2 = [⟨c.exe_path, ["--version"]⟩] ∨
     (c.list_installed env).2 = [⟨c.exe_path, ["--version"]⟩,
        ⟨c.exe_path, ["list", "--local-only", "--limit-output"]⟩]) ∧
    ((c.upgrade env pid).2 = [⟨c.exe_path, ["--version"]⟩] ∨
     (c.upgrade env pid).2 = [⟨c.exe_path, ["--version"]⟩, ⟨c.exe_path, ["--version"]⟩,
        ⟨c.exe_path, ["list", "--local-only", "--limit-output"]⟩] ∨
     (c.upgrade env pid).2 = [⟨c.exe_path, ["--version"]⟩, ⟨c.exe_path, ["--version"]⟩,
        ⟨c.exe_path, ["list", "--local-only", "--limit-output"]⟩,
        ⟨c.exe_path, ["upgrade", pid, "-y", "--no-progress"]⟩]) ∧
    ((w.install env pid).2 = [⟨w.exe_path, ["--version"]⟩] ∨
     (w.install env pid).2 = [⟨w.exe_path, ["--version"]⟩,
        ⟨w.exe_path, ["install", "--id", pid, "--silent",
           "--accept-package-agreements", "--accept-source-agreements"]⟩]) ∧
    ((w.uninstall env pid).2 = [⟨w.exe_path, ["--version"]⟩] ∨
     (w.uninstall env pid).2 = [⟨w.exe_path, ["--version"]⟩,
        ⟨w.exe_path, ["uninstall", "--id", pid, "--silent"]⟩]) ∧
    ((w.list_installed env).2 = [⟨w.exe_path, ["--version"]⟩] ∨
     (w.list_installed env).2 = [⟨w.exe_path, ["--version"]⟩,
        ⟨w.exe_path, ["list"]⟩]) ∧
    ((w.upgrade env pid).2 = [⟨w.exe_path, ["--version"]⟩] ∨
     (w.upgrade env pid).2 = [⟨w.exe_path, ["--version"]⟩, ⟨w.exe_path, ["--version"]⟩,
        ⟨w.exe_path, ["list"]⟩] ∨
     (w.upgrade env pid).2 = [⟨w.exe_path, ["--version"]⟩, ⟨w.exe_path, ["--version"]⟩,
        ⟨w.exe_path, ["list"]⟩,
        ⟨w.exe_path, ["upgrade", "--id", pid, "--silent",
           "--accept-package-agreements"]⟩]) := by
  refine ⟨?_, ?_, ?_, ?_, ?_, ?_, ?_, ?_⟩
  · rcases hp : env.run c.exe_path ["--version"] with m | ⟨b0, o0, e0⟩
    · exact Or.inl (by simp [ChocolateyManager.install, ChocolateyManager.is_installed,
        ChocolateyManager.probeCall, hp])
    · rcases hs : env.run c.exe_path ["install", pid, "-y", "--no-progress"] with
        m2 | ⟨b, o, e⟩ <;>
        exact Or.inr (by simp [ChocolateyManager.install, ChocolateyManager.is_installed,
          ChocolateyManager.probeCall, hp, hs])
  · rcases hp : env.run c.exe_path ["--version"] with m | ⟨b0, o0, e0⟩
    · exact Or.inl (by simp [ChocolateyManager.uninstall, ChocolateyManager.is_installed,
        ChocolateyManager.probeCall, hp])
    · rcases hs : env.run c.exe_path ["uninstall", pid, "-y"] with m2 | ⟨b, o, e⟩ <;>
        exact Or.inr (by simp [ChocolateyManager.uninstall, ChocolateyManager.is_installed,
          ChocolateyManager.probeCall, hp, hs])
  · rcases hp : env.run c.exe_path ["--version"] with m | ⟨b0, o0, e0⟩
    · exact Or.inl (by simp [ChocolateyManager.list_installed, ChocolateyManager.is_installed,
        ChocolateyManager.probeCall, hp])
    · rcases hs : env.run c.exe_path ["list", "--local-only", "--limit-output"] with
        m2 | ⟨b, o, e⟩
      · exact Or.inr (by simp [ChocolateyManager.list_installed,
          ChocolateyManager.is_installed, ChocolateyManager.probeCall, hp, hs])
      · cases b <;>
          exact Or.inr (by simp [ChocolateyManager.list_installed,
            ChocolateyManager.is_installed, ChocolateyManager.probeCall, hp, hs])
  · rcases hp : env.run c.exe_path ["--version"] with m | ⟨b0, o0, e0⟩
    · exact Or.inl (by simp [ChocolateyManager.upgrade, ChocolateyManager.is_installed,
        ChocolateyManager.probeCall, hp])
    · rcases hl : env.run c.exe_path ["list", "--local-only", "--limit-output"] with
        m2 | ⟨bl, lo, le⟩
      · exact Or.inr (Or.inl (by simp [ChocolateyManager.upgrade,
          ChocolateyManager.list_installed, ChocolateyManager.is_installed,
          ChocolateyManager.probeCall, hp, hl]))
      · cases bl
        · exact Or.inr (Or.inl (by simp [ChocolateyManager.upgrade,
            ChocolateyManager.list_installed, ChocolateyManager.is_installed,
            ChocolateyManager.probeCall, hp, hl]))
        · rcases hu : env.run c.exe_path ["upgrade", pid, "-y", "--no-progress"] with
            m3 | ⟨bu, uo, ue⟩ <;>
            exact Or.inr (Or.inr (by simp [ChocolateyManager.upgrade,
              ChocolateyManager.list_installed, ChocolateyManager.is_installed,
              ChocolateyManager.probeCall, hp, hl, hu]))
  · rcases hp : env.run w.exe_path ["--version"] with m | ⟨b0, o0, e0⟩
    · exact Or.inl (by simp [WingetManager.install, WingetManager.is_installed,
        WingetManager.probeCall, hp])
    · rcases hs : env.run w.exe_path ["install", "--id", pid, "--silent",
          "--accept-package-agreements", "--accept-source-agreements"] with m2 | ⟨b, o, e⟩ <;>
        exact Or.inr (by simp [WingetManager.install, WingetManager.is_installed,
          WingetManager.probeCall, hp, hs])
  · rcases hp : env.run w.exe_path ["--version"] with m | ⟨b0, o0, e0⟩
    · exact Or.inl (by simp [WingetManager.uninstall, WingetManager.is_installed,
        WingetManager.probeCall, hp])
    · rcases hs : env.run w.exe_path ["uninstall", "--id", pid, "--silent"] with
        m2 | ⟨b, o, e⟩ <;>
        exact Or.inr (by simp [WingetManager.uninstall, WingetManager.is_installed,
          WingetManager.probeCall, hp, hs])
  · rcases hp : env.run w.exe_path ["--version"] with m | ⟨b0, o0, e0⟩
    · exact Or.inl (by simp [WingetManager.list_installed, WingetManager.is_installed,
        WingetManager.probeCall, hp])
    · rcases hs : env.run w.exe_path ["list"] with m2 | ⟨b, o, e⟩
      · exact Or.inr (by simp [WingetManager.list_installed, WingetManager.is_installed,
          WingetManager.probeCall, hp, hs])
      · cases b <;>
          exact Or.inr (by simp [WingetManager.list_installed, WingetManager.is_installed,
            WingetManager.probeCall, hp, hs])
  · rcases hp : env.run w.exe_path ["--version"] with m | ⟨b0, o0, e0⟩
    · exact Or.inl (by simp [WingetManager.upgrade, WingetManager.is_installed,
        WingetManager.probeCall, hp])
    · rcases hl : env.run w.exe_path ["list"] with m2 | ⟨bl, lo, le⟩
      · exact Or.inr (Or.inl (by simp [WingetManager.upgrade,
          WingetManager.list_installed, WingetManager.is_installed,
          WingetManager.probeCall, hp, hl]))
      · cases bl
        · exact Or.inr (Or.inl (by simp [WingetManager.upgrade,
            WingetManager.list_installed, WingetManager.is_installed,
            WingetManager.probeCall, hp, hl]))
        · rcases hu : env.run w.exe_path ["upgrade", "--id", pid, "--silent",
              "--accept-package-agreements"] with m3 | ⟨bu, uo, ue⟩ <;>
            exact Or.inr (Or.inr (by simp [WingetManager.upgrade,
              WingetManager.list_installed, WingetManager.is_installed,
              WingetManager.probeCall, hp, hl, hu]))

/-- **C10.** For every backend, if the pre-upgrade list query fails with an
error-union value, upgrade propagates that very value to the caller and the
upgrade subcommand never appears in the spawn trace. -/
theorem upgrade_propagates_list_failure
    (c : ChocolateyManager) (w : WingetManager) (env : Env) (pid : String) :
    (∀ e, (c.list_installed env).1 = .error e →
       (c.upgrade env pid).1 = .error e ∧
       (⟨c.exe_path, ["upgrade", pid, "-y", "--no-progress"]⟩ : SpawnCall) ∉
         (c.upgrade env pid).2) ∧
    (∀ e, (w.list_installed env).1 = .error e →
       (w.upgrade env pid).1 = .error e ∧
       (⟨w.exe_path, ["upgrade", "--id", pid, "--silent",
          "--accept-package-agreements"]⟩ : SpawnCall) ∉ (w.upgrade env pid).2) := by
  constructor
  · intro e he
    rcases hp : env.run c.exe_path ["--version"] with m | ⟨b0, o0, e0⟩
    · simp [ChocolateyManager.list_installed, ChocolateyManager.is_installed, hp] at he
      subst he
      refine ⟨?_, ?_⟩ <;>
        simp [ChocolateyManager.upgrade, ChocolateyManager.is_installed,
          ChocolateyManager.probeCall, hp]
    · rcases hl : env.run c.exe_path ["list", "--local-only", "--limit-output"] with
        m2 | ⟨bl, lo, le⟩
      · simp [ChocolateyManager.list_installed, ChocolateyManager.is_installed, hp, hl] at he
        subst he
        refine ⟨?_, ?_⟩ <;>
          simp [ChocolateyManager.upgrade, ChocolateyManager.list_installed,
            ChocolateyManager.is_installed, ChocolateyManager.probeCall, hp, hl]
      · cases bl
        · simp [ChocolateyManager.list_installed, ChocolateyManager.is_installed,
            hp, hl] at he
          subst he
          refine ⟨?_, ?_⟩ <;>
            simp [ChocolateyManager.upgrade, ChocolateyManager.list_installed,
              ChocolateyManager.is_installed, ChocolateyManager.probeCall, hp, hl]
        · simp [ChocolateyManager.list_installed, ChocolateyManager.is_installed,
            hp, hl] at he
  · intro e he
    rcases hp : env.run w.exe_path ["--version"] with m | ⟨b0, o0, e0⟩
    · simp [WingetManager.list_installed, WingetManager.is_installed, hp] at he
      subst he
      refine ⟨?_, ?_⟩ <;>
        simp [WingetManager.upgrade, WingetManager.is_installed,
          WingetManager.probeCall, hp]
    · rcases hl : env.run w.exe_path ["list"] with m2 | ⟨bl, lo, le⟩
      · simp [WingetManager.list_installed, WingetManager.is_installed, hp, hl] at he
        subst he
        refine ⟨?_, ?_⟩ <;>
          simp [WingetManager.upgrade, WingetManager.list_installed,
            WingetManager.is_installed, WingetManager.probeCall, hp, hl]
      · cases bl
        · simp [WingetManager.list_installed, WingetManager.is_installed, hp, hl] at he
          subst he
          refine ⟨?_, ?_⟩ <;>
            simp [WingetManager.upgrade, WingetManager.list_installed,
              WingetManager.is_installed, WingetManager.probeCall, hp, hl]
        · simp [WingetManager.list_installed, WingetManager.is_installed, hp, hl] at he

/-- Witness for C10 at a concrete environment whose listing subcommand exits
non-zero: upgrade returns the propagated `CommandFailed` and never spawns the
upgrade vector. -/
theorem upgrade_propagates_list_failure_witness :
    (ChocolateyManager.new.upgrade envListBroken "pkg").1 =
      .error (.CommandFailed "list broke") ∧
    (⟨"choco", ["upgrade", "pkg", "-y", "--no-progress"]⟩ : SpawnCall) ∉
      (ChocolateyManager.new.upgrade envListBroken "pkg").2 :=
  (upgrade_propagates_list_failure ChocolateyManager.new WingetManager.new
    envListBroken "pkg").1 (.CommandFailed "list broke") (by decide)
